import Mathlib

set_option linter.unusedVariables false

/-
Verification of the `corpus` package (corpus.go): a 2D vector type and a
disk-shaped rigid body ("Corpus") with force accumulation, integration,
elastic collision, gravitation, electrostatics and boundary bouncing.

Embedding conventions:
* Go `float64` is modelled by the real numbers `ℝ`; IEEE-754 rounding and the
  non-finite values NaN/±Inf are outside this model (Lean real division by
  zero yields 0 where Go would yield ±Inf/NaN).
* The Go pointer-receiver methods mutate their receiver in place; here they
  are modelled by state passing: each mutating method returns the updated
  value.  The in-place vector variants (`AddP`, `SubP`, `MultP`, `DivP`,
  `NormP`, `SetMagP`) compute exactly the same value as their pure
  counterparts and are modelled by assignments of those pure functions.
* The slice-walking interaction methods (`Collide`, `Gravitate`, `Coulomb`)
  are modelled by a per-element body (`collidePair`, `gravitatePair`,
  `coulombPair`) folded sequentially over a `List Corpus`, matching the Go
  `for idx := range corpi` loop that mutates the focal body and the slice
  elements one after the other.
-/

namespace corpus

noncomputable section

/-- The 2D vector of corpus.go: `type Vector struct { X, Y float64 }`. -/
@[ext]
structure Vector where
  X : ℝ
  Y : ℝ

/-- `Add` adds two vectors, returning a new vector. -/
def Vector.Add (a b : Vector) : Vector :=
  ⟨a.X + b.X, a.Y + b.Y⟩

/-- `Sub` subtracts b from a, returning a new vector. -/
def Vector.Sub (a b : Vector) : Vector :=
  ⟨a.X - b.X, a.Y - b.Y⟩

/-- `Mult` multiplies the vector with a scalar, returning a new vector. -/
def Vector.Mult (a : Vector) (b : ℝ) : Vector :=
  ⟨a.X * b, a.Y * b⟩

/-- `Div` divides the vector by a scalar, returning a new vector. -/
def Vector.Div (a : Vector) (b : ℝ) : Vector :=
  ⟨a.X / b, a.Y / b⟩

/-- `Dot` returns the dot product of two vectors. -/
def Vector.Dot (a b : Vector) : ℝ :=
  a.X * b.X + a.Y * b.Y

/-- `Mag` returns the magnitude of the vector: `math.Sqrt(a.X*a.X + a.Y*a.Y)`. -/
def Vector.Mag (a : Vector) : ℝ :=
  Real.sqrt (a.X * a.X + a.Y * a.Y)

/-- `MagSq` returns the magnitude of the vector, squared. -/
def Vector.MagSq (a : Vector) : ℝ :=
  a.X * a.X + a.Y * a.Y

/-- `Dist` returns the distance between the two vectors: `a.Sub(b).Mag()`. -/
def Vector.Dist (a b : Vector) : ℝ :=
  (a.Sub b).Mag

/-- `DistSq` returns the distance between the two vectors, squared. -/
def Vector.DistSq (a b : Vector) : ℝ :=
  (a.Sub b).MagSq

/-- `Norm` normalizes a vector: `a.Div(a.Mag())`. -/
def Vector.Norm (a : Vector) : Vector :=
  a.Div a.Mag

/-- `SetMag` returns a new vector in the same direction with given magnitude:
`a.Norm().Mult(mag)`. -/
def Vector.SetMag (a : Vector) (mag : ℝ) : Vector :=
  (a.Norm).Mult mag

/-- The 2D physical disk of corpus.go:
`Pos, Vel, Acc Vector; Mass, Charge, Radius float64; Immaterial bool`. -/
structure Corpus where
  Pos : Vector
  Vel : Vector
  Acc : Vector
  Mass : ℝ
  Charge : ℝ
  Radius : ℝ
  Immaterial : Bool

/-- `MakeCorpus` initialises and returns a Corpus with the given fields;
by default `Acc` is `{0,0}` and `Immaterial` is false. -/
def MakeCorpus (posX posY velX velY mass charge rad : ℝ) : Corpus :=
  { Pos := ⟨posX, posY⟩
    Vel := ⟨velX, velY⟩
    Mass := mass
    Charge := charge
    Radius := rad
    Acc := ⟨0, 0⟩
    Immaterial := false }

/-- Modelled from the spec: the radius-only constructor variant that the
repository's test `TestMakeCorpus` calls with five arguments is not present
under src (only its tests are); per the spec, it "takes position (x,y),
velocity (x,y), and ... radius alone (mass derived as radius²)" and "always
initializes acceleration to zero and immateriality to false".  The old
Corpus had no charge field; charge is taken as 0 here. -/
def MakeCorpus5 (posX posY velX velY rad : ℝ) : Corpus :=
  { Pos := ⟨posX, posY⟩
    Vel := ⟨velX, velY⟩
    Mass := rad * rad
    Charge := 0
    Radius := rad
    Acc := ⟨0, 0⟩
    Immaterial := false }

/-- `IsInter` checks if two corpi intersect each other:
`c.Pos.Dist(cp.Pos) <= c.Radius+cp.Radius`. -/
def Corpus.IsInter (c cp : Corpus) : Prop :=
  c.Pos.Dist cp.Pos ≤ c.Radius + cp.Radius

instance (c cp : Corpus) : Decidable (c.IsInter cp) :=
  inferInstanceAs (Decidable (c.Pos.Dist cp.Pos ≤ c.Radius + cp.Radius))

/-- `ApplyForce` subjects the corpus to the given force by mutating its
acceleration: `c.Acc.AddP(f.Div(c.Mass))`. -/
def Corpus.ApplyForce (c : Corpus) (f : Vector) : Corpus :=
  { c with Acc := c.Acc.Add (f.Div c.Mass) }

/-- `Bounce` bounces the corpus off window boundaries given by width and
height; the four `if`s run in sequence, and all four conditions test the
position components saved before any mutation. -/
def Corpus.Bounce (c : Corpus) (width height : ℝ) : Corpus :=
  let posX := c.Pos.X
  let posY := c.Pos.Y
  let rad := c.Radius
  let c1 := if posX > width - rad then
      { c with Pos := ⟨width - rad, c.Pos.Y⟩, Vel := ⟨-c.Vel.X, c.Vel.Y⟩ }
    else c
  let c2 := if posX < rad then
      { c1 with Pos := ⟨rad, c1.Pos.Y⟩, Vel := ⟨-c1.Vel.X, c1.Vel.Y⟩ }
    else c1
  let c3 := if posY > height - rad then
      { c2 with Pos := ⟨c2.Pos.X, height - rad⟩, Vel := ⟨c2.Vel.X, -c2.Vel.Y⟩ }
    else c2
  if posY < rad then
    { c3 with Pos := ⟨c3.Pos.X, rad⟩, Vel := ⟨c3.Vel.X, -c3.Vel.Y⟩ }
  else c3

/-- The body of the `Collide` loop for one element `cp` of the slice:
depenetration displaces both centers by
`c.Pos.Sub(cp.Pos).SetMag((c.Radius+cp.Radius-dist)/2)` (positions mutate
first), then `cVelP` is computed into a temporary from the pre-update
velocities, `cp.Vel` is assigned (still reading the old `c.Vel`), and only
then `c.Vel = cVelP`. -/
def Corpus.collidePair (c cp : Corpus) : Corpus × Corpus :=
  if c.Immaterial = false ∧ cp.Immaterial = false then
    let dist := c.Pos.Dist cp.Pos
    if c.IsInter cp then
      let displace := (c.Pos.Sub cp.Pos).SetMag ((c.Radius + cp.Radius - dist) / 2)
      let c1 : Corpus := { c with Pos := c.Pos.Add displace }
      let cp1 : Corpus := { cp with Pos := cp.Pos.Add (displace.Mult (-1)) }
      let cVelP := c1.Vel.Sub ((c1.Pos.Sub cp1.Pos).Mult
        ((2 * cp1.Mass / (c1.Mass + cp1.Mass)) *
          ((c1.Vel.Sub cp1.Vel).Dot (c1.Pos.Sub cp1.Pos)) / (c1.Pos.DistSq cp1.Pos)))
      let cpVel := cp1.Vel.Sub ((cp1.Pos.Sub c1.Pos).Mult
        ((2 * c1.Mass / (c1.Mass + cp1.Mass)) *
          ((cp1.Vel.Sub c1.Vel).Dot (cp1.Pos.Sub c1.Pos)) / (c1.Pos.DistSq cp1.Pos)))
      ({ c1 with Vel := cVelP }, { cp1 with Vel := cpVel })
    else (c, cp)
  else (c, cp)

/-- `Collide` collides the given corpus with the given corpi in the slice,
walking the slice in order and mutating the focal body and each element. -/
def Corpus.Collide (c : Corpus) (corpi : List Corpus) : Corpus × List Corpus :=
  match corpi with
  | [] => (c, [])
  | cp :: rest =>
      let p := c.collidePair cp
      let q := p.1.Collide rest
      (q.1, p.2 :: q.2)

/-- The body of the `Gravitate` loop for one element `cp` of the slice:
`force := cp.Pos.Sub(c.Pos).Mult(G*c.Mass*cp.Mass/(dist*dist)).Div(dist)`,
applied to `c` and its negation to `cp`. -/
def Corpus.gravitatePair (c cp : Corpus) (G : ℝ) : Corpus × Corpus :=
  if c.Immaterial = false ∧ cp.Immaterial = false then
    let dist := c.Pos.Dist cp.Pos
    if dist + 2 ≥ c.Radius + cp.Radius then
      let force := ((cp.Pos.Sub c.Pos).Mult (G * c.Mass * cp.Mass / (dist * dist))).Div dist
      (c.ApplyForce force, cp.ApplyForce (force.Mult (-1)))
    else (c, cp)
  else (c, cp)

/-- `Gravitate` applies the gravitational force between the given corpus and
all of the rest corpi, walking the slice in order. -/
def Corpus.Gravitate (c : Corpus) (corpi : List Corpus) (G : ℝ) : Corpus × List Corpus :=
  match corpi with
  | [] => (c, [])
  | cp :: rest =>
      let p := c.gravitatePair cp G
      let q := p.1.Gravitate rest G
      (q.1, p.2 :: q.2)

/-- The body of the `Coulomb` loop for one element `cp` of the slice.  Note:
the Go source computes
`force := cp.Pos.Sub(c.Pos).Mult(1*c.Charge*cp.Charge/(dist*dist)).Div(dist)`
with the literal `1` where its own doc comment (`F = k*q1*q2/r^2`) names the
parameter `k`; the parameter `k` is never read.  `c` receives
`force.Mult(-1)` and `cp` receives `force`. -/
def Corpus.coulombPair (c cp : Corpus) (k : ℝ) : Corpus × Corpus :=
  if c.Immaterial = false ∧ cp.Immaterial = false then
    let dist := c.Pos.Dist cp.Pos
    if dist + 2 ≥ c.Radius + cp.Radius then
      let force := ((cp.Pos.Sub c.Pos).Mult (1 * c.Charge * cp.Charge / (dist * dist))).Div dist
      (c.ApplyForce (force.Mult (-1)), cp.ApplyForce force)
    else (c, cp)
  else (c, cp)

/-- `Coulomb` applies the electrostatic force between the given corpus and
all of the rest corpi, walking the slice in order. -/
def Corpus.Coulomb (c : Corpus) (corpi : List Corpus) (k : ℝ) : Corpus × List Corpus :=
  match corpi with
  | [] => (c, [])
  | cp :: rest =>
      let p := c.coulombPair cp k
      let q := p.1.Coulomb rest k
      (q.1, p.2 :: q.2)

/-- `Update` updates the given corpus as unit time passes:
`Vel.AddP(Acc)`, then `Pos.AddP(Vel)`, then `Acc.MultP(0)`; a no-op when
the corpus is immaterial. -/
def Corpus.Update (c : Corpus) : Corpus :=
  if c.Immaterial = false then
    let vel := c.Vel.Add c.Acc
    let pos := c.Pos.Add vel
    { c with Vel := vel, Pos := pos, Acc := c.Acc.Mult 0 }
  else c

/-! ### Vector algebra helper lemmas -/

theorem Vector.Mag_nonneg (a : Vector) : 0 ≤ a.Mag :=
  Real.sqrt_nonneg _

theorem Vector.MagSq_nonneg (a : Vector) : 0 ≤ a.MagSq := by
  have hx := mul_self_nonneg a.X
  have hy := mul_self_nonneg a.Y
  unfold Vector.MagSq
  linarith

/-- Over the reals, squaring the square root recovers the squared norm. -/
theorem Vector.Mag_mul_self (a : Vector) : a.Mag * a.Mag = a.MagSq := by
  unfold Vector.Mag Vector.MagSq
  exact Real.mul_self_sqrt (by nlinarith [mul_self_nonneg a.X, mul_self_nonneg a.Y])

theorem Vector.Mag_eq_zero_iff (a : Vector) : a.Mag = 0 ↔ a = ⟨0, 0⟩ := by
  unfold Vector.Mag
  rw [Real.sqrt_eq_zero' ]
  constructor
  · intro h
    have hx : a.X * a.X = 0 :=
      le_antisymm (by nlinarith [mul_self_nonneg a.Y]) (mul_self_nonneg a.X)
    have hy : a.Y * a.Y = 0 :=
      le_antisymm (by nlinarith [mul_self_nonneg a.X]) (mul_self_nonneg a.Y)
    ext
    · exact mul_self_eq_zero.mp hx
    · exact mul_self_eq_zero.mp hy
  · intro h
    rw [h]
    norm_num

theorem Vector.Mag_mult (a : Vector) (t : ℝ) : (a.Mult t).Mag = |t| * a.Mag := by
  unfold Vector.Mult Vector.Mag
  have h : a.X * t * (a.X * t) + a.Y * t * (a.Y * t) = t ^ 2 * (a.X * a.X + a.Y * a.Y) := by
    ring
  rw [show ((⟨a.X * t, a.Y * t⟩ : Vector).X * (⟨a.X * t, a.Y * t⟩ : Vector).X +
      (⟨a.X * t, a.Y * t⟩ : Vector).Y * (⟨a.X * t, a.Y * t⟩ : Vector).Y) =
      a.X * t * (a.X * t) + a.Y * t * (a.Y * t) from rfl, h,
    Real.sqrt_mul (sq_nonneg t), Real.sqrt_sq_eq_abs]

theorem Vector.Mag_sub_comm (a b : Vector) : (a.Sub b).Mag = (b.Sub a).Mag := by
  unfold Vector.Sub Vector.Mag
  ring_nf

theorem Vector.Dist_pos (a b : Vector) (h : a ≠ b) : 0 < a.Dist b := by
  rcases lt_or_eq_of_le ((a.Sub b).Mag_nonneg) with hlt | heq
  · exact hlt
  · exfalso
    apply h
    have hz : (a.Sub b) = ⟨0, 0⟩ := (Vector.Mag_eq_zero_iff _).mp heq.symm
    have hX : a.X - b.X = 0 := congrArg Vector.X hz
    have hY : a.Y - b.Y = 0 := congrArg Vector.Y hz
    ext
    · linarith
    · linarith

theorem Vector.SetMag_eq_mult (a : Vector) (m : ℝ) : a.SetMag m = a.Mult (m / a.Mag) := by
  unfold Vector.SetMag Vector.Norm Vector.Div Vector.Mult
  ext <;> dsimp only <;> ring

theorem Vector.Mult_div (a : Vector) (s d : ℝ) : (a.Mult s).Div d = a.Mult (s / d) := by
  unfold Vector.Div Vector.Mult
  ext <;> dsimp only <;> ring

theorem Vector.Mag_SetMag (a : Vector) (m : ℝ) (h : a.Mag ≠ 0) : (a.SetMag m).Mag = |m| := by
  rw [Vector.SetMag_eq_mult, Vector.Mag_mult, abs_div, abs_of_nonneg a.Mag_nonneg,
    div_mul_cancel₀ _ h]

/-! ### Concrete sample bodies used by witnesses -/

/-- A unit-mass disk of radius 2 at the origin moving right. -/
def bodyA : Corpus := ⟨⟨0, 0⟩, ⟨1, 0⟩, ⟨0, 0⟩, 1, 1, 2, false⟩

/-- A unit-mass disk of radius 2 at (3,0) moving left; it overlaps bodyA. -/
def bodyB : Corpus := ⟨⟨3, 0⟩, ⟨-1, 0⟩, ⟨0, 0⟩, 1, 1, 2, false⟩

/-- An immaterial copy of bodyA. -/
def bodyImm : Corpus := ⟨⟨0, 0⟩, ⟨1, 0⟩, ⟨0, 0⟩, 1, 1, 2, true⟩

/-! ### C9 -/

/-- C9: construction via MakeCorpus always initializes acceleration to the zero
vector and immateriality to false, and in the variant where mass derives from
the radius, MakeCorpus5 1 2 3 4 5 yields Pos={1,2}, Vel={3,4}, Radius=5,
Mass=25 (radius squared), Acc={0,0}. -/
theorem makeCorpus_spec :
    (∀ px py vx vy m q r : ℝ,
      (MakeCorpus px py vx vy m q r).Acc = ⟨0, 0⟩ ∧
      (MakeCorpus px py vx vy m q r).Immaterial = false) ∧
    (∀ px py vx vy r : ℝ,
      (MakeCorpus5 px py vx vy r).Acc = ⟨0, 0⟩ ∧
      (MakeCorpus5 px py vx vy r).Immaterial = false) ∧
    MakeCorpus5 1 2 3 4 5 =
      { Pos := ⟨1, 2⟩, Vel := ⟨3, 4⟩, Acc := ⟨0, 0⟩, Mass := 25, Charge := 0,
        Radius := 5, Immaterial := false } := by
  refine ⟨fun _ _ _ _ _ _ _ => ⟨rfl, rfl⟩, fun _ _ _ _ _ => ⟨rfl, rfl⟩, ?_⟩
  unfold MakeCorpus5
  norm_num

/-! ### C3 -/

/-- C3 (real-valued model of the code): for a non-immaterial corpus, Update
sets Vel to Vel + Acc, then Pos to Pos + (the new Vel), and leaves Acc equal
to the zero vector (the source resets via Acc.MultP(0), and x*0 = 0 over ℝ;
IEEE-754 non-finite inputs, where Inf*0 = NaN, are outside this model); an
immaterial corpus is left unchanged. -/
theorem update_spec (c : Corpus) :
    (c.Immaterial = false →
      c.Update.Vel = c.Vel.Add c.Acc ∧
      c.Update.Pos = c.Pos.Add (c.Vel.Add c.Acc) ∧
      c.Update.Acc = ⟨0, 0⟩) ∧
    (c.Immaterial = true → c.Update = c) := by
  constructor
  · intro h
    unfold Corpus.Update
    rw [if_pos h]
    refine ⟨rfl, rfl, ?_⟩
    show c.Acc.Mult 0 = ⟨0, 0⟩
    unfold Vector.Mult
    ext <;> dsimp only <;> ring
  · intro h
    unfold Corpus.Update
    rw [if_neg (by rw [h]; simp)]

/-- Witness for update_spec: a concrete non-immaterial body and a concrete
immaterial body. -/
theorem update_spec_witness :
    (bodyA.Immaterial = false ∧
      bodyA.Update.Vel = bodyA.Vel.Add bodyA.Acc ∧
      bodyA.Update.Pos = bodyA.Pos.Add (bodyA.Vel.Add bodyA.Acc) ∧
      bodyA.Update.Acc = ⟨0, 0⟩) ∧
    (bodyImm.Immaterial = true ∧ bodyImm.Update = bodyImm) :=
  ⟨⟨rfl, (update_spec bodyA).1 rfl⟩, ⟨rfl, (update_spec bodyImm).2 rfl⟩⟩

/-! ### C10 -/

/-- Two corpi agree on the fields the interaction passes never mutate. -/
def SameFrame (a b : Corpus) : Prop :=
  a.Mass = b.Mass ∧ a.Charge = b.Charge ∧ a.Radius = b.Radius ∧
    a.Immaterial = b.Immaterial

theorem SameFrame.rfl (a : Corpus) : SameFrame a a :=
  ⟨Eq.refl _, Eq.refl _, Eq.refl _, Eq.refl _⟩

theorem SameFrame.trans {a b c : Corpus} (h1 : SameFrame a b)
    (h2 : SameFrame b c) : SameFrame a c :=
  ⟨h1.1.trans h2.1, h1.2.1.trans h2.2.1, h1.2.2.1.trans h2.2.2.1,
    h1.2.2.2.trans h2.2.2.2⟩

theorem collidePair_frame (c cp : Corpus) :
    SameFrame c (c.collidePair cp).1 ∧ SameFrame cp (c.collidePair cp).2 := by
  unfold Corpus.collidePair
  dsimp only
  split_ifs <;> exact ⟨SameFrame.rfl _, SameFrame.rfl _⟩

theorem gravitatePair_frame (c cp : Corpus) (G : ℝ) :
    SameFrame c (c.gravitatePair cp G).1 ∧ SameFrame cp (c.gravitatePair cp G).2 := by
  unfold Corpus.gravitatePair Corpus.ApplyForce
  dsimp only
  split_ifs <;> exact ⟨SameFrame.rfl _, SameFrame.rfl _⟩

theorem coulombPair_frame (c cp : Corpus) (k : ℝ) :
    SameFrame c (c.coulombPair cp k).1 ∧ SameFrame cp (c.coulombPair cp k).2 := by
  unfold Corpus.coulombPair Corpus.ApplyForce
  dsimp only
  split_ifs <;> exact ⟨SameFrame.rfl _, SameFrame.rfl _⟩

theorem Collide_frame (c : Corpus) (l : List Corpus) :
    SameFrame c (c.Collide l).1 ∧ List.Forall₂ SameFrame l (c.Collide l).2 := by
  induction l generalizing c with
  | nil => exact ⟨SameFrame.rfl c, List.Forall₂.nil⟩
  | cons cp rest ih =>
      have hp := collidePair_frame c cp
      have hq := ih (c.collidePair cp).1
      exact ⟨hp.1.trans hq.1, List.Forall₂.cons hp.2 hq.2⟩

theorem Gravitate_frame (c : Corpus) (l : List Corpus) (G : ℝ) :
    SameFrame c (c.Gravitate l G).1 ∧ List.Forall₂ SameFrame l (c.Gravitate l G).2 := by
  induction l generalizing c with
  | nil => exact ⟨SameFrame.rfl c, List.Forall₂.nil⟩
  | cons cp rest ih =>
      have hp := gravitatePair_frame c cp G
      have hq := ih (c.gravitatePair cp G).1
      exact ⟨hp.1.trans hq.1, List.Forall₂.cons hp.2 hq.2⟩

theorem Coulomb_frame (c : Corpus) (l : List Corpus) (k : ℝ) :
    SameFrame c (c.Coulomb l k).1 ∧ List.Forall₂ SameFrame l (c.Coulomb l k).2 := by
  induction l generalizing c with
  | nil => exact ⟨SameFrame.rfl c, List.Forall₂.nil⟩
  | cons cp rest ih =>
      have hp := coulombPair_frame c cp k
      have hq := ih (c.coulombPair cp k).1
      exact ⟨hp.1.trans hq.1, List.Forall₂.cons hp.2 hq.2⟩

/-- C10: every call to Collide, Gravitate, Coulomb, Bounce or Update leaves
Mass, Charge, Radius and Immaterial of every body involved (focal corpus and
every element of the others slice) unchanged; only Pos, Vel and Acc mutate. -/
theorem frame_spec :
    (∀ (c : Corpus) (corpi : List Corpus),
      SameFrame c (c.Collide corpi).1 ∧
      List.Forall₂ SameFrame corpi (c.Collide corpi).2) ∧
    (∀ (c : Corpus) (corpi : List Corpus) (G : ℝ),
      SameFrame c (c.Gravitate corpi G).1 ∧
      List.Forall₂ SameFrame corpi (c.Gravitate corpi G).2) ∧
    (∀ (c : Corpus) (corpi : List Corpus) (k : ℝ),
      SameFrame c (c.Coulomb corpi k).1 ∧
      List.Forall₂ SameFrame corpi (c.Coulomb corpi k).2) ∧
    (∀ (c : Corpus) (width height : ℝ), SameFrame c (c.Bounce width height)) ∧
    (∀ c : Corpus, SameFrame c c.Update) := by
  refine ⟨Collide_frame, Gravitate_frame, Coulomb_frame, ?_, ?_⟩
  · intro c width height
    unfold Corpus.Bounce
    dsimp only
    split_ifs <;> exact SameFrame.rfl _
  · intro c
    unfold Corpus.Update
    dsimp only
    split_ifs <;> exact SameFrame.rfl _

/-! ### C2 -/

theorem sqrt_nine : Real.sqrt 9 = 3 := by
  rw [show (9 : ℝ) = 3 ^ 2 by norm_num]
  exact Real.sqrt_sq (by norm_num)

theorem distAB : bodyA.Pos.Dist bodyB.Pos = 3 := by
  have h : bodyA.Pos.Dist bodyB.Pos = Real.sqrt 9 := by
    unfold bodyA bodyB Vector.Dist Vector.Sub Vector.Mag
    norm_num
  rw [h, sqrt_nine]

theorem coulomb_accA : (bodyA.coulombPair bodyB 2).1.Acc = ⟨-(1 / 9), 0⟩ := by
  unfold Corpus.coulombPair
  dsimp only
  rw [if_pos (⟨rfl, rfl⟩ : bodyA.Immaterial = false ∧ bodyB.Immaterial = false),
    distAB, if_pos (show (3 : ℝ) + 2 ≥ bodyA.Radius + bodyB.Radius by
      norm_num [bodyA, bodyB])]
  unfold Corpus.ApplyForce Vector.Add Vector.Sub Vector.Mult Vector.Div
  ext <;> norm_num [bodyA, bodyB]

/-- C2 (code bug in the source): the Go body of Coulomb multiplies by the
literal 1, never reading its parameter k, so the force magnitude is
q1*q2/dist² rather than the documented k*q1*q2/dist².  First conjunct: the
result of coulombPair is entirely independent of k.  Second and third
conjuncts: at two unit charges a distance 3 apart and k = 2, the focal body's
acceleration changes by magnitude 1*1*1/9 (divided by its unit mass), which
differs from the claimed 2*1*1/9. -/
theorem coulomb_spec_violation :
    (∀ (c cp : Corpus) (k1 k2 : ℝ), c.coulombPair cp k1 = c.coulombPair cp k2) ∧
    ((bodyA.coulombPair bodyB 2).1.Acc.Sub bodyA.Acc).Mag =
      1 * bodyA.Charge * bodyB.Charge / (3 * 3) / bodyA.Mass ∧
    (1 * bodyA.Charge * bodyB.Charge / (3 * 3) / bodyA.Mass : ℝ) ≠
      2 * bodyA.Charge * bodyB.Charge / (3 * 3) / bodyA.Mass := by
  refine ⟨fun c cp k1 k2 => rfl, ?_, ?_⟩
  · have h : (bodyA.coulombPair bodyB 2).1.Acc.Sub bodyA.Acc = ⟨-(1 / 9), 0⟩ := by
      rw [coulomb_accA]
      unfold bodyA Vector.Sub
      ext <;> norm_num
    rw [h]
    have hm : (⟨-(1 / 9), 0⟩ : Vector).Mag = 1 / 9 := by
      unfold Vector.Mag
      rw [show (-(1 / 9 : ℝ)) * (-(1 / 9)) + 0 * 0 = (1 / 9 : ℝ) ^ 2 by ring]
      rw [Real.sqrt_sq (by norm_num)]
    rw [hm]
    norm_num [bodyA, bodyB]
  · norm_num [bodyA, bodyB]

/-! ### Collision: spec-side formulas and unfolding lemmas -/

/-- The spec's elastic-collision formula for the first body, transcribed from
its words: v1 minus (2*m2/(m1+m2)) times (dot of v1-v2 with x1-x2 over the
squared norm of x1-x2) times (x1-x2). -/
def specElasticV1 (m1 m2 : ℝ) (v1 v2 x1 x2 : Vector) : Vector :=
  v1.Sub ((x1.Sub x2).Mult
    ((2 * m2 / (m1 + m2)) * (((v1.Sub v2).Dot (x1.Sub x2)) / (x1.Sub x2).MagSq)))

/-- The spec's elastic-collision formula for the second body, symmetric to
specElasticV1 with the indices exchanged. -/
def specElasticV2 (m1 m2 : ℝ) (v1 v2 x1 x2 : Vector) : Vector :=
  v2.Sub ((x2.Sub x1).Mult
    ((2 * m1 / (m1 + m2)) * (((v2.Sub v1).Dot (x2.Sub x1)) / (x2.Sub x1).MagSq)))

theorem collidePair_fst_pos (c cp : Corpus) (h1 : c.Immaterial = false)
    (h2 : cp.Immaterial = false) (hi : c.IsInter cp) :
    (c.collidePair cp).1.Pos =
      c.Pos.Add ((c.Pos.Sub cp.Pos).SetMag
        ((c.Radius + cp.Radius - c.Pos.Dist cp.Pos) / 2)) := by
  unfold Corpus.collidePair
  dsimp only
  rw [if_pos ⟨h1, h2⟩, if_pos hi]

theorem collidePair_snd_pos (c cp : Corpus) (h1 : c.Immaterial = false)
    (h2 : cp.Immaterial = false) (hi : c.IsInter cp) :
    (c.collidePair cp).2.Pos =
      cp.Pos.Add (((c.Pos.Sub cp.Pos).SetMag
        ((c.Radius + cp.Radius - c.Pos.Dist cp.Pos) / 2)).Mult (-1)) := by
  unfold Corpus.collidePair
  dsimp only
  rw [if_pos ⟨h1, h2⟩, if_pos hi]

theorem collidePair_fst_vel (c cp : Corpus) (h1 : c.Immaterial = false)
    (h2 : cp.Immaterial = false) (hi : c.IsInter cp) :
    (c.collidePair cp).1.Vel =
      c.Vel.Sub (((c.collidePair cp).1.Pos.Sub (c.collidePair cp).2.Pos).Mult
        ((2 * cp.Mass / (c.Mass + cp.Mass)) *
          ((c.Vel.Sub cp.Vel).Dot
            ((c.collidePair cp).1.Pos.Sub (c.collidePair cp).2.Pos)) /
          ((c.collidePair cp).1.Pos.DistSq (c.collidePair cp).2.Pos))) := by
  rw [collidePair_fst_pos c cp h1 h2 hi, collidePair_snd_pos c cp h1 h2 hi]
  unfold Corpus.collidePair
  dsimp only
  rw [if_pos ⟨h1, h2⟩, if_pos hi]

theorem collidePair_snd_vel (c cp : Corpus) (h1 : c.Immaterial = false)
    (h2 : cp.Immaterial = false) (hi : c.IsInter cp) :
    (c.collidePair cp).2.Vel =
      cp.Vel.Sub (((c.collidePair cp).2.Pos.Sub (c.collidePair cp).1.Pos).Mult
        ((2 * c.Mass / (c.Mass + cp.Mass)) *
          ((cp.Vel.Sub c.Vel).Dot
            ((c.collidePair cp).2.Pos.Sub (c.collidePair cp).1.Pos)) /
          ((c.collidePair cp).1.Pos.DistSq (c.collidePair cp).2.Pos))) := by
  rw [collidePair_fst_pos c cp h1 h2 hi, collidePair_snd_pos c cp h1 h2 hi]
  unfold Corpus.collidePair
  dsimp only
  rw [if_pos ⟨h1, h2⟩, if_pos hi]

theorem add_sub_self (p v : Vector) : (p.Add v).Sub p = v := by
  unfold Vector.Add Vector.Sub
  ext <;> dsimp only <;> ring

theorem depen_sub (p q : Vector) (t : ℝ) :
    (p.Add ((p.Sub q).Mult t)).Sub (q.Add (((p.Sub q).Mult t).Mult (-1))) =
      (p.Sub q).Mult (1 + 2 * t) := by
  unfold Vector.Add Vector.Sub Vector.Mult
  ext <;> dsimp only <;> ring

/-! ### C1 -/

/-- C1: for two non-immaterial corpi with positive masses, distinct centers
and intersecting per IsInter, collidePair assigns velocities that follow the
two-body elastic collision formula evaluated at the post-depenetration
positions, and total momentum m1*v1 + m2*v2 is exactly preserved over the
reals. -/
theorem collide_momentum (c cp : Corpus) (h1 : c.Immaterial = false)
    (h2 : cp.Immaterial = false) (hm1 : 0 < c.Mass) (hm2 : 0 < cp.Mass)
    (hne : c.Pos ≠ cp.Pos) (hi : c.IsInter cp) :
    (c.collidePair cp).1.Vel =
      specElasticV1 c.Mass cp.Mass c.Vel cp.Vel
        (c.collidePair cp).1.Pos (c.collidePair cp).2.Pos ∧
    (c.collidePair cp).2.Vel =
      specElasticV2 c.Mass cp.Mass c.Vel cp.Vel
        (c.collidePair cp).1.Pos (c.collidePair cp).2.Pos ∧
    ((c.collidePair cp).1.Vel.Mult c.Mass).Add
        ((c.collidePair cp).2.Vel.Mult cp.Mass) =
      (c.Vel.Mult c.Mass).Add (cp.Vel.Mult cp.Mass) := by
  have hv1 := collidePair_fst_vel c cp h1 h2 hi
  have hv2 := collidePair_snd_vel c cp h1 h2 hi
  refine ⟨?_, ?_, ?_⟩
  · rw [hv1]
    unfold specElasticV1 Vector.DistSq Vector.MagSq Vector.Sub Vector.Dot Vector.Mult
    ext <;> dsimp only <;> ring
  · rw [hv2]
    unfold specElasticV2 Vector.DistSq Vector.MagSq Vector.Sub Vector.Dot Vector.Mult
    ext <;> dsimp only <;> ring
  · rw [hv1, hv2]
    unfold Vector.DistSq Vector.MagSq Vector.Sub Vector.Dot Vector.Mult Vector.Add
    ext <;> dsimp only <;> ring

/-! ### C4 -/

/-- C4: within one pair resolution of Collide, both post-collision velocities
are computed from the same pre-update velocity state: the assigned pair of
velocities equals the simultaneous evaluation of the two elastic formulas at
the velocities both bodies had before either assignment, so neither update
feeds into the formula for the other. -/
theorem collide_pre_update_state (c cp : Corpus) (h1 : c.Immaterial = false)
    (h2 : cp.Immaterial = false) (hi : c.IsInter cp) :
    ((c.collidePair cp).1.Vel, (c.collidePair cp).2.Vel) =
      (specElasticV1 c.Mass cp.Mass c.Vel cp.Vel
          (c.collidePair cp).1.Pos (c.collidePair cp).2.Pos,
        specElasticV2 c.Mass cp.Mass c.Vel cp.Vel
          (c.collidePair cp).1.Pos (c.collidePair cp).2.Pos) := by
  have hv1 := collidePair_fst_vel c cp h1 h2 hi
  have hv2 := collidePair_snd_vel c cp h1 h2 hi
  rw [Prod.mk.injEq]
  constructor
  · rw [hv1]
    unfold specElasticV1 Vector.DistSq Vector.MagSq Vector.Sub Vector.Dot Vector.Mult
    ext <;> dsimp only <;> ring
  · rw [hv2]
    unfold specElasticV2 Vector.DistSq Vector.MagSq Vector.Sub Vector.Dot Vector.Mult
    ext <;> dsimp only <;> ring

/-! ### C5 -/

/-- C5: for an intersecting pair of non-immaterial corpi with distinct
centers at distance dist < r1 + r2, the depenetration step displaces each
center by (r1+r2-dist)/2 along the line joining the centers, in opposite
directions, and after depenetration the distance between the centers equals
exactly r1 + r2. -/
theorem collide_depenetration (c cp : Corpus) (h1 : c.Immaterial = false)
    (h2 : cp.Immaterial = false) (hne : c.Pos ≠ cp.Pos)
    (hlt : c.Pos.Dist cp.Pos < c.Radius + cp.Radius) :
    ((c.collidePair cp).1.Pos.Sub c.Pos).Mag =
      (c.Radius + cp.Radius - c.Pos.Dist cp.Pos) / 2 ∧
    ((c.collidePair cp).2.Pos.Sub cp.Pos).Mag =
      (c.Radius + cp.Radius - c.Pos.Dist cp.Pos) / 2 ∧
    (c.collidePair cp).2.Pos.Sub cp.Pos =
      ((c.collidePair cp).1.Pos.Sub c.Pos).Mult (-1) ∧
    (∃ t : ℝ, (c.collidePair cp).1.Pos.Sub c.Pos = (c.Pos.Sub cp.Pos).Mult t) ∧
    (c.collidePair cp).1.Pos.Dist (c.collidePair cp).2.Pos =
      c.Radius + cp.Radius := by
  have hi : c.IsInter cp := le_of_lt hlt
  have hp1 := collidePair_fst_pos c cp h1 h2 hi
  have hp2 := collidePair_snd_pos c cp h1 h2 hi
  have hd0 : 0 < c.Pos.Dist cp.Pos := Vector.Dist_pos _ _ hne
  have hd0' : (c.Pos.Sub cp.Pos).Mag ≠ 0 := hd0.ne'
  have hm0 : 0 ≤ (c.Radius + cp.Radius - c.Pos.Dist cp.Pos) / 2 := by linarith
  have hD1 : (c.collidePair cp).1.Pos.Sub c.Pos =
      (c.Pos.Sub cp.Pos).SetMag ((c.Radius + cp.Radius - c.Pos.Dist cp.Pos) / 2) := by
    rw [hp1]
    exact add_sub_self _ _
  have hD2 : (c.collidePair cp).2.Pos.Sub cp.Pos =
      ((c.Pos.Sub cp.Pos).SetMag
        ((c.Radius + cp.Radius - c.Pos.Dist cp.Pos) / 2)).Mult (-1) := by
    rw [hp2]
    exact add_sub_self _ _
  refine ⟨?_, ?_, ?_, ?_, ?_⟩
  · rw [hD1, Vector.Mag_SetMag _ _ hd0']
    exact abs_of_nonneg hm0
  · rw [hD2, Vector.Mag_mult, Vector.Mag_SetMag _ _ hd0', abs_of_nonneg hm0]
    norm_num
  · rw [hD2, hD1]
  · rw [hD1, Vector.SetMag_eq_mult]
    exact ⟨(c.Radius + cp.Radius - c.Pos.Dist cp.Pos) / 2 / (c.Pos.Sub cp.Pos).Mag, rfl⟩
  · show ((c.collidePair cp).1.Pos.Sub (c.collidePair cp).2.Pos).Mag = _
    rw [hp1, hp2, Vector.SetMag_eq_mult, depen_sub, Vector.Mag_mult]
    unfold Vector.Dist
    have hscal : 1 + 2 * ((c.Radius + cp.Radius - (c.Pos.Sub cp.Pos).Mag) / 2 /
        (c.Pos.Sub cp.Pos).Mag) =
        (c.Radius + cp.Radius) / (c.Pos.Sub cp.Pos).Mag := by
      field_simp
      ring
    have hrr : 0 ≤ c.Radius + cp.Radius := (lt_trans hd0 hlt).le
    rw [hscal, abs_of_nonneg (div_nonneg hrr (c.Pos.Sub cp.Pos).Mag_nonneg),
      div_mul_cancel₀ _ hd0']

/-! ### C7 -/

theorem ApplyForce_delta (c : Corpus) (f : Vector) :
    (c.ApplyForce f).Acc.Sub c.Acc = f.Div c.Mass := by
  unfold Corpus.ApplyForce Vector.Add Vector.Sub Vector.Div
  ext <;> dsimp only <;> ring

/-- C7: for non-immaterial corpi with distinct centers, positive masses,
nonnegative G and dist + 2 >= r1 + r2, gravitatePair applies via ApplyForce a
force of magnitude G*m1*m2/dist² directed from c toward cp to c, and the
exact opposite force to cp, so the mass-weighted acceleration changes sum to
the zero vector; pairs with dist + 2 < r1 + r2, or with either body
immaterial, are left unchanged. -/
theorem gravitate_spec (c cp : Corpus) (G : ℝ) :
    (c.Immaterial = false → cp.Immaterial = false → 0 < c.Mass → 0 < cp.Mass →
      0 ≤ G → c.Pos ≠ cp.Pos →
      c.Pos.Dist cp.Pos + 2 ≥ c.Radius + cp.Radius →
      ∃ f : Vector,
        (c.gravitatePair cp G).1 = c.ApplyForce f ∧
        (c.gravitatePair cp G).2 = cp.ApplyForce (f.Mult (-1)) ∧
        f.Mag = G * c.Mass * cp.Mass /
          (c.Pos.Dist cp.Pos * c.Pos.Dist cp.Pos) ∧
        (∃ t : ℝ, 0 ≤ t ∧ f = (cp.Pos.Sub c.Pos).Mult t) ∧
        ((((c.gravitatePair cp G).1.Acc.Sub c.Acc).Mult c.Mass).Add
          (((c.gravitatePair cp G).2.Acc.Sub cp.Acc).Mult cp.Mass)) = ⟨0, 0⟩) ∧
    ((c.Pos.Dist cp.Pos + 2 < c.Radius + cp.Radius ∨
        c.Immaterial = true ∨ cp.Immaterial = true) →
      c.gravitatePair cp G = (c, cp)) := by
  constructor
  · intro h1 h2 hm1 hm2 hG hne hd
    have hd0 : 0 < c.Pos.Dist cp.Pos := Vector.Dist_pos _ _ hne
    have hpair : c.gravitatePair cp G =
        (c.ApplyForce (((cp.Pos.Sub c.Pos).Mult (G * c.Mass * cp.Mass /
            (c.Pos.Dist cp.Pos * c.Pos.Dist cp.Pos))).Div (c.Pos.Dist cp.Pos)),
          cp.ApplyForce ((((cp.Pos.Sub c.Pos).Mult (G * c.Mass * cp.Mass /
            (c.Pos.Dist cp.Pos * c.Pos.Dist cp.Pos))).Div
              (c.Pos.Dist cp.Pos)).Mult (-1))) := by
      unfold Corpus.gravitatePair
      dsimp only
      rw [if_pos ⟨h1, h2⟩, if_pos hd]
    refine ⟨((cp.Pos.Sub c.Pos).Mult (G * c.Mass * cp.Mass /
        (c.Pos.Dist cp.Pos * c.Pos.Dist cp.Pos))).Div (c.Pos.Dist cp.Pos),
      by rw [hpair], by rw [hpair], ?_, ?_, ?_⟩
    · rw [Vector.Mult_div, Vector.Mag_mult]
      have hmagrev : (cp.Pos.Sub c.Pos).Mag = c.Pos.Dist cp.Pos :=
        Vector.Mag_sub_comm cp.Pos c.Pos
      rw [hmagrev]
      have hs0 : 0 ≤ G * c.Mass * cp.Mass /
          (c.Pos.Dist cp.Pos * c.Pos.Dist cp.Pos) / c.Pos.Dist cp.Pos :=
        div_nonneg (div_nonneg (mul_nonneg (mul_nonneg hG hm1.le) hm2.le)
          (mul_nonneg hd0.le hd0.le)) hd0.le
      rw [abs_of_nonneg hs0, div_mul_cancel₀ _ hd0.ne']
    · exact ⟨G * c.Mass * cp.Mass /
        (c.Pos.Dist cp.Pos * c.Pos.Dist cp.Pos) / c.Pos.Dist cp.Pos,
        div_nonneg (div_nonneg (mul_nonneg (mul_nonneg hG hm1.le) hm2.le)
          (mul_nonneg hd0.le hd0.le)) hd0.le,
        Vector.Mult_div _ _ _⟩
    · rw [hpair]
      dsimp only
      rw [ApplyForce_delta, ApplyForce_delta]
      unfold Vector.Add Vector.Mult Vector.Div
      ext <;> dsimp only <;> field_simp <;> ring
  · intro h
    rcases h with hlt | him | him
    · unfold Corpus.gravitatePair
      dsimp only
      by_cases himm : c.Immaterial = false ∧ cp.Immaterial = false
      · rw [if_pos himm, if_neg (not_le.mpr hlt)]
      · rw [if_neg himm]
    · unfold Corpus.gravitatePair
      dsimp only
      rw [if_neg (by simp [him])]
    · unfold Corpus.gravitatePair
      dsimp only
      rw [if_neg (by simp [him])]

/-! ### C6 -/

/-- A radius-5 disk inside a 5-wide window: the box [radius, width-radius]
is empty, both X-clamps of Bounce fire (their conditions test the saved
pre-call position) and the velocity is negated twice. -/
def bodyWide : Corpus := ⟨⟨3, 10⟩, ⟨7, 0⟩, ⟨0, 0⟩, 1, 0, 5, false⟩

/-- C6 counterexample: for bodyWide with width 5, height 20 the claim fails:
after Bounce the X position is 5, which does not lie in
[radius, width-radius] = [5, 0], and although the pre-call X position 3 lay
outside that interval the X velocity is 7 = -(-7), not negated. -/
theorem bounce_claim_counterexample :
    ¬ (((bodyWide.Bounce 5 20).Pos.X ≤ 5 - bodyWide.Radius) ∧
      ((bodyWide.Pos.X < bodyWide.Radius ∨ 5 - bodyWide.Radius < bodyWide.Pos.X) →
        (bodyWide.Bounce 5 20).Vel.X = -bodyWide.Vel.X)) := by
  have hB : bodyWide.Bounce 5 20 = ⟨⟨5, 10⟩, ⟨7, 0⟩, ⟨0, 0⟩, 1, 0, 5, false⟩ := by
    unfold Corpus.Bounce bodyWide
    norm_num
  intro h
  rcases h with ⟨hpos, hvel⟩
  rw [hB] at hpos
  norm_num [bodyWide] at hpos

/-- C6 as amended: whenever the box is at least as wide and tall as the disk
diameter (2*radius <= width and 2*radius <= height), Bounce leaves the
position inside [radius, width-radius] x [radius, height-radius], and
whenever an axis's pre-call position component lay outside that axis's
interval, the corresponding velocity component is negated; both axes can
trigger in the same call. -/
theorem bounce_spec (c : Corpus) (width height : ℝ)
    (hw : 2 * c.Radius ≤ width) (hh : 2 * c.Radius ≤ height) :
    (c.Radius ≤ (c.Bounce width height).Pos.X ∧
      (c.Bounce width height).Pos.X ≤ width - c.Radius) ∧
    (c.Radius ≤ (c.Bounce width height).Pos.Y ∧
      (c.Bounce width height).Pos.Y ≤ height - c.Radius) ∧
    ((c.Pos.X < c.Radius ∨ width - c.Radius < c.Pos.X) →
      (c.Bounce width height).Vel.X = -c.Vel.X) ∧
    ((c.Pos.Y < c.Radius ∨ height - c.Radius < c.Pos.Y) →
      (c.Bounce width height).Vel.Y = -c.Vel.Y) := by
  unfold Corpus.Bounce
  dsimp only
  split_ifs with hc1 hc2 hc3 hc4 <;>
    refine ⟨⟨?_, ?_⟩, ⟨?_, ?_⟩, fun hx => ?_, fun hy => ?_⟩ <;>
    (try dsimp only) <;>
    first
      | rfl
      | linarith
      | (rcases hx with hx | hx <;> linarith)
      | (rcases hy with hy | hy <;> linarith)

/-! ### Witnesses -/

theorem bodyA_ne_bodyB : bodyA.Pos ≠ bodyB.Pos := by
  intro h
  have h0 : (0 : ℝ) = 3 := congrArg Vector.X h
  norm_num at h0

theorem bodyA_inter_bodyB : bodyA.IsInter bodyB := by
  unfold Corpus.IsInter
  rw [distAB]
  norm_num [bodyA, bodyB]

theorem bodyA_dist_lt : bodyA.Pos.Dist bodyB.Pos < bodyA.Radius + bodyB.Radius := by
  rw [distAB]
  norm_num [bodyA, bodyB]

/-- Witness instantiating collide_momentum at the overlapping pair bodyA,
bodyB (unit masses, centers 3 apart, radii 2 and 2). -/
theorem collide_momentum_witness :
    bodyA.Immaterial = false ∧ bodyB.Immaterial = false ∧
    0 < bodyA.Mass ∧ 0 < bodyB.Mass ∧ bodyA.Pos ≠ bodyB.Pos ∧
    bodyA.IsInter bodyB ∧
    ((bodyA.collidePair bodyB).1.Vel.Mult bodyA.Mass).Add
        ((bodyA.collidePair bodyB).2.Vel.Mult bodyB.Mass) =
      (bodyA.Vel.Mult bodyA.Mass).Add (bodyB.Vel.Mult bodyB.Mass) :=
  ⟨rfl, rfl, by norm_num [bodyA], by norm_num [bodyB], bodyA_ne_bodyB,
    bodyA_inter_bodyB,
    (collide_momentum bodyA bodyB rfl rfl (by norm_num [bodyA])
      (by norm_num [bodyB]) bodyA_ne_bodyB bodyA_inter_bodyB).2.2⟩

/-- Witness instantiating collide_pre_update_state at bodyA, bodyB. -/
theorem collide_pre_update_state_witness :
    bodyA.Immaterial = false ∧ bodyB.Immaterial = false ∧ bodyA.IsInter bodyB ∧
    ((bodyA.collidePair bodyB).1.Vel, (bodyA.collidePair bodyB).2.Vel) =
      (specElasticV1 bodyA.Mass bodyB.Mass bodyA.Vel bodyB.Vel
          (bodyA.collidePair bodyB).1.Pos (bodyA.collidePair bodyB).2.Pos,
        specElasticV2 bodyA.Mass bodyB.Mass bodyA.Vel bodyB.Vel
          (bodyA.collidePair bodyB).1.Pos (bodyA.collidePair bodyB).2.Pos) :=
  ⟨rfl, rfl, bodyA_inter_bodyB,
    collide_pre_update_state bodyA bodyB rfl rfl bodyA_inter_bodyB⟩

/-- Witness instantiating collide_depenetration at bodyA, bodyB. -/
theorem collide_depenetration_witness :
    bodyA.Immaterial = false ∧ bodyB.Immaterial = false ∧
    bodyA.Pos ≠ bodyB.Pos ∧
    bodyA.Pos.Dist bodyB.Pos < bodyA.Radius + bodyB.Radius ∧
    (bodyA.collidePair bodyB).1.Pos.Dist (bodyA.collidePair bodyB).2.Pos =
      bodyA.Radius + bodyB.Radius :=
  ⟨rfl, rfl, bodyA_ne_bodyB, bodyA_dist_lt,
    (collide_depenetration bodyA bodyB rfl rfl bodyA_ne_bodyB bodyA_dist_lt).2.2.2.2⟩

/-- Witness instantiating gravitate_spec: the eligible branch at bodyA,
bodyB with G = 1, and the unchanged branch at the immaterial bodyImm. -/
theorem gravitate_spec_witness :
    (bodyA.Immaterial = false ∧ bodyB.Immaterial = false ∧ 0 < bodyA.Mass ∧
      0 < bodyB.Mass ∧ (0 : ℝ) ≤ 1 ∧ bodyA.Pos ≠ bodyB.Pos ∧
      bodyA.Pos.Dist bodyB.Pos + 2 ≥ bodyA.Radius + bodyB.Radius ∧
      ∃ f : Vector,
        (bodyA.gravitatePair bodyB 1).1 = bodyA.ApplyForce f ∧
        (bodyA.gravitatePair bodyB 1).2 = bodyB.ApplyForce (f.Mult (-1)) ∧
        f.Mag = 1 * bodyA.Mass * bodyB.Mass /
          (bodyA.Pos.Dist bodyB.Pos * bodyA.Pos.Dist bodyB.Pos) ∧
        (∃ t : ℝ, 0 ≤ t ∧ f = (bodyB.Pos.Sub bodyA.Pos).Mult t) ∧
        ((((bodyA.gravitatePair bodyB 1).1.Acc.Sub bodyA.Acc).Mult bodyA.Mass).Add
          (((bodyA.gravitatePair bodyB 1).2.Acc.Sub bodyB.Acc).Mult bodyB.Mass)) =
            ⟨0, 0⟩) ∧
    (bodyImm.Immaterial = true ∧ bodyImm.gravitatePair bodyA 1 = (bodyImm, bodyA)) := by
  have hd : bodyA.Pos.Dist bodyB.Pos + 2 ≥ bodyA.Radius + bodyB.Radius := by
    rw [distAB]
    norm_num [bodyA, bodyB]
  exact ⟨⟨rfl, rfl, by norm_num [bodyA], by norm_num [bodyB], by norm_num,
      bodyA_ne_bodyB, hd,
      (gravitate_spec bodyA bodyB 1).1 rfl rfl (by norm_num [bodyA])
        (by norm_num [bodyB]) (by norm_num) bodyA_ne_bodyB hd⟩,
    rfl, (gravitate_spec bodyImm bodyA 1).2 (Or.inr (Or.inl rfl))⟩

/-- A radius-1 disk that starts left of a 10 by 10 window. -/
def bodyBounce : Corpus := ⟨⟨-2, 5⟩, ⟨3, 4⟩, ⟨0, 0⟩, 1, 0, 1, false⟩

/-- Witness instantiating bounce_spec at bodyBounce in a 10 by 10 window. -/
theorem bounce_spec_witness :
    2 * bodyBounce.Radius ≤ 10 ∧ 2 * bodyBounce.Radius ≤ 10 ∧
    ((bodyBounce.Radius ≤ (bodyBounce.Bounce 10 10).Pos.X ∧
      (bodyBounce.Bounce 10 10).Pos.X ≤ 10 - bodyBounce.Radius) ∧
    (bodyBounce.Radius ≤ (bodyBounce.Bounce 10 10).Pos.Y ∧
      (bodyBounce.Bounce 10 10).Pos.Y ≤ 10 - bodyBounce.Radius) ∧
    ((bodyBounce.Pos.X < bodyBounce.Radius ∨
        10 - bodyBounce.Radius < bodyBounce.Pos.X) →
      (bodyBounce.Bounce 10 10).Vel.X = -bodyBounce.Vel.X) ∧
    ((bodyBounce.Pos.Y < bodyBounce.Radius ∨
        10 - bodyBounce.Radius < bodyBounce.Pos.Y) →
      (bodyBounce.Bounce 10 10).Vel.Y = -bodyBounce.Vel.Y)) :=
  ⟨by norm_num [bodyBounce], by norm_num [bodyBounce],
    bounce_spec bodyBounce 10 10 (by norm_num [bodyBounce])
      (by norm_num [bodyBounce])⟩

end

end corpus
